import Mathlib

set_option maxHeartbeats 1000000

/-
Shallow embedding of pdfMaker1.py (an LLM-driven PDF generator pipeline):
string post-processing, safety screening, isolated execution with
timeout, artifact discovery, history retention, and the orchestration
performed by main().  Strings are modelled as List Char; Python string
methods (replace, strip, substring membership) are re-implemented below
with the same semantics on that representation.
-/

namespace PDFGen

/-- The backtick character (code point 96), named so the character can be
referred to in statements about code-fence markers. -/
def backtick : Char := Char.ofNat 96

/-- Python str whitespace membership, restricted to the ASCII characters
Python strips by default: space, tab, newline, carriage return, vertical
tab, form feed. -/
def isPyWhitespace (c : Char) : Bool :=
  c == ' ' || c == '\t' || c == '\n' || c == '\r' || c == Char.ofNat 11 || c == Char.ofNat 12

/-- Python str.strip(): remove whitespace from both ends of the string. -/
def stripList (s : List Char) : List Char :=
  ((s.dropWhile isPyWhitespace).reverse.dropWhile isPyWhitespace).reverse

/-- Fuel-indexed worker for Python str.replace.  When the pattern is
nonempty every step consumes at least one character of the input, so fuel
equal to the input length is enough to process the whole input. -/
def replaceGo (pat rep : List Char) : Nat → List Char → List Char
  | _, [] => []
  | 0, s => s
  | f+1, c :: cs =>
    if pat.isPrefixOf (c :: cs) then rep ++ replaceGo pat rep f (cs.drop (pat.length - 1))
    else c :: replaceGo pat rep f cs

/-- Python s.replace(pat, rep): replace every non-overlapping occurrence
of pat in s by rep, scanning left to right. -/
def pyReplace (s pat rep : List Char) : List Char :=
  replaceGo pat rep s.length s

/-- Python substring membership `pat in s`. -/
def containsSub (pat : List Char) : List Char → Bool
  | [] => pat.isEmpty
  | c :: cs => pat.isPrefixOf (c :: cs) || containsSub pat cs

/-- The bare code-fence marker stripped at line 74 of the source. -/
def codeFence : List Char := "```".toList

/-- The language-tagged code-fence marker stripped at line 74. -/
def pythonFence : List Char := "```python".toList

/-- The post-processing applied to the model response at line 74:
tempCode.replace("```python", "").replace("```", "").strip(). -/
def cleanCode (t : List Char) : List Char :=
  stripList (pyReplace (pyReplace t pythonFence []) codeFence [])

/-- generate_pdf_code (lines 30-78), abstracted over the external service
call: the response is either text or an exception.  On exception the
function reports the error and returns None; otherwise it returns the
cleaned response text.  There is no retry. -/
def generate_pdf_code (response : Except (List Char) (List Char)) : Option (List Char) :=
  match response with
  | .error _ => none
  | .ok t => some (cleanCode t)

/-- The outcome of subprocess.run as observed by create_pdf_from_code:
normal return (any exit code), subprocess.TimeoutExpired, or any other
exception raised while launching/running (launch failure). -/
structure CompletedProc where
  returncode : Int
  stdout : List Char
  stderr : List Char
deriving DecidableEq

inductive ExecEvent where
  | completes (p : CompletedProc)
  | timeout
  | launchFailure (msg : List Char)
deriving DecidableEq

/-- The remediation hint appended at line 103 when stderr mentions a
missing module. -/
def moduleTip : List Char :=
  "\n\n💡 Tip: The code requires additional libraries. Please install them using: pip install reportlab Pillow".toList

/-- The timeout message produced at line 109. -/
def timeoutMsg : List Char :=
  "PDF generation timed out. The code might be stuck in an infinite loop.".toList

/-- Error-message enrichment for a non-zero exit (lines 100-103). -/
def execErrorMsg (stderr : List Char) : List Char :=
  if containsSub ("ModuleNotFoundError".toList) stderr then stderr ++ moduleTip else stderr

/-- Return value of create_pdf_from_code together with the state of the
temporary source file when the function returns: tempFileRemoved records
whether the os.unlink at line 97 was reached. -/
structure ExecReturn where
  result : Option CompletedProc
  error : Option (List Char)
  tempFileRemoved : Bool
deriving DecidableEq

/-- create_pdf_from_code (lines 80-115).  The os.unlink at line 97 runs
only when subprocess.run returns normally; the TimeoutExpired handler
(line 108) and the generic exception handler (line 112) return without
reaching it. -/
def create_pdf_from_code (ev : ExecEvent) : ExecReturn :=
  match ev with
  | .completes p =>
    if p.returncode ≠ 0 then ⟨none, some (execErrorMsg p.stderr), true⟩
    else ⟨some p, none, true⟩
  | .timeout => ⟨none, some timeoutMsg, false⟩
  | .launchFailure m => ⟨none, some ("Error creating PDF: ".toList ++ m), false⟩

/-- A PDF file in the working directory: identity is the path, with its
last-modified timestamp. -/
structure Artifact where
  path : List Char
  mtime : Int
deriving DecidableEq

/-- The sort relation used by find_pdf_files: newest first. -/
def mtimeGE (a b : Artifact) : Prop := b.mtime ≤ a.mtime

instance : DecidableRel mtimeGE := fun a b => inferInstanceAs (Decidable (b.mtime ≤ a.mtime))

instance : IsTotal Artifact mtimeGE := ⟨fun a b => (le_total b.mtime a.mtime).imp id id⟩

instance : IsTrans Artifact mtimeGE := ⟨fun _ _ _ hab hbc => le_trans hbc hab⟩

/-- find_pdf_files (lines 117-122): the *.pdf files of the directory,
sorted by modification time, newest first (Python list.sort is stable, so
ties keep directory-listing order; insertion sort is stable with the same
tie behaviour).  Note: no timestamp filter of any kind is applied. -/
def find_pdf_files (files : List Artifact) : List Artifact :=
  List.insertionSort mtimeGE files

/-- One entry of st.session_state.history (lines 166-172). -/
structure HistoryEntry where
  timestamp : Int
  prompt : List Char
  code : List Char
  success : Bool
  filename : Option (List Char)
deriving DecidableEq

/-- save_to_history (lines 161-176): insert at the head, keep the first
10 entries. -/
def save_to_history (e : HistoryEntry) (hist : List HistoryEntry) : List HistoryEntry :=
  (e :: hist).take 10

/-- A sequence of save_to_history calls starting from the empty history
(session state starts with history = []). -/
def recordAll (es : List HistoryEntry) : List HistoryEntry :=
  es.foldl (fun h e => save_to_history e h) []

/-- The deny-list of validate_code_safety (lines 149-152), in source
order. -/
def dangerousPatterns : List (List Char) :=
  ["os.system".toList, "subprocess.call".toList, "eval(".toList, "exec(".toList,
   "__import__".toList, "open(".toList, "shutil.rmtree".toList, "rm -".toList,
   "del ".toList, "import os".toList]

/-- The warning text built at line 157. -/
def warnMsg (p : List Char) : List Char := "Potential security concern: ".toList ++ p

/-- validate_code_safety (lines 147-159): one warning per deny-list
pattern that occurs in the code, in deny-list order.  The loop appends
the warning for a pattern at most once, which is exactly the filter-map
below. -/
def validate_code_safety (code : List Char) : List (List Char) :=
  (dangerousPatterns.filter (fun p => containsSub p code)).map warnMsg

/-- Per-request result of the processing block of main (lines 352-452):
final user-visible status, safety warnings, history after the request,
number of child-process executions attempted, the artifact directory
contents after any pruning, and the temporary file state (none when no
execution was attempted). -/
inductive ReqStatus where
  | synthesisFailed (msg : List Char)
  | executionFailed (msg : List Char)
  | noArtifact (msg : List Char)
  | success (a : Artifact)
deriving DecidableEq

/-- The message of line 452. -/
def synthFailMsg : List Char :=
  "Failed to generate code. Please check your API configuration and try again.".toList

/-- The message of line 443. -/
def noArtifactMsg : List Char :=
  "PDF file was not generated. Please try again with a more specific prompt.".toList

structure OrchResult where
  status : ReqStatus
  warnings : List (List Char)
  history : List HistoryEntry
  executions : Nat
  remaining : List Artifact
  tempFileRemoved : Option Bool
deriving DecidableEq

/-- The request-processing block of main (lines 352-452), parameterized
over the safety screener so that independence of the outcome from the
screening can be stated.  Faithful control flow: a falsy code string
(None or empty after cleaning) takes the line-449 branch with no
execution and no history entry; an execution failure or a missing
artifact records a failed history entry; success records a successful
entry and prunes the directory down to the first three files of the
newest-first listing (lines 434-439). -/
def orchestrateWith (screener : List Char → List (List Char)) (prompt : List Char)
    (response : Except (List Char) (List Char)) (ev : ExecEvent)
    (files : List Artifact) (now : Int) (hist : List HistoryEntry) : OrchResult :=
  match generate_pdf_code response with
  | none => ⟨.synthesisFailed synthFailMsg, [], hist, 0, files, none⟩
  | some code =>
    if code = [] then ⟨.synthesisFailed synthFailMsg, [], hist, 0, files, none⟩
    else
      let warnings := screener code
      let er := create_pdf_from_code ev
      match er.result with
      | none =>
        ⟨.executionFailed (er.error.getD []), warnings,
         save_to_history ⟨now, prompt, code, false, none⟩ hist, 1, files, some er.tempFileRemoved⟩
      | some _ =>
        let pdfs := find_pdf_files files
        match pdfs.head? with
        | none =>
          ⟨.noArtifact noArtifactMsg, warnings,
           save_to_history ⟨now, prompt, code, false, none⟩ hist, 1, files, some er.tempFileRemoved⟩
        | some pdf =>
          ⟨.success pdf, warnings,
           save_to_history ⟨now, prompt, code, true, some pdf.path⟩ hist, 1,
           pdfs.take 3, some er.tempFileRemoved⟩

/-- main's processing block with the screener of the source. -/
def orchestrate (prompt : List Char) (response : Except (List Char) (List Char))
    (ev : ExecEvent) (files : List Artifact) (now : Int)
    (hist : List HistoryEntry) : OrchResult :=
  orchestrateWith validate_code_safety prompt response ev files now hist

/-- The code-fence wrapping named by the round-trip property: a leading
language-tagged fence line and a trailing fence line around the text. -/
def wrapFence (s : List Char) : List Char :=
  "```python\n".toList ++ s ++ "\n```".toList

/-- replaceGo ignores fuel beyond the input length: any two sufficient
fuels compute the same result. -/
theorem replaceGo_congr (pat rep : List Char) :
    ∀ f g s, s.length ≤ f → s.length ≤ g → replaceGo pat rep f s = replaceGo pat rep g s := by
  intro f
  induction f with
  | zero =>
    intro g s hf _
    have hs : s = [] := by
      cases s with
      | nil => rfl
      | cons c cs => simp at hf
    subst hs
    cases g <;> rfl
  | succ f ih =>
    intro g s hf hg
    cases s with
    | nil => cases g <;> rfl
    | cons c cs =>
      cases g with
      | zero => simp at hg
      | succ g' =>
        simp only [List.length_cons, Nat.add_le_add_iff_right] at hf hg
        simp only [replaceGo]
        by_cases hp : pat.isPrefixOf (c :: cs)
        · rw [if_pos hp, if_pos hp]
          have hd : (cs.drop (pat.length - 1)).length ≤ cs.length := by
            simp [List.length_drop]
          exact congrArg (rep ++ ·) (ih g' _ (le_trans hd hf) (le_trans hd hg))
        · rw [if_neg hp, if_neg hp]
          exact congrArg (c :: ·) (ih g' cs hf hg)

theorem pyReplace_nil (pat rep : List Char) : pyReplace [] pat rep = [] := rfl

/-- Scanning step of pyReplace when the pattern does not match at the
head. -/
theorem pyReplace_cons_of_neg (pat rep : List Char) (c : Char) (cs : List Char)
    (h : ¬ pat.isPrefixOf (c :: cs)) :
    pyReplace (c :: cs) pat rep = c :: pyReplace cs pat rep := by
  unfold pyReplace
  simp only [List.length_cons, replaceGo]
  rw [if_neg h]

/-- If the pattern starts with a backtick it cannot match at a
non-backtick head. -/
theorem isPrefixOf_cons_of_head (pat : List Char) (c : Char) (cs : List Char)
    (hp : pat.head? = some backtick) (hc : c ≠ backtick) :
    ¬ pat.isPrefixOf (c :: cs) := by
  cases pat with
  | nil => simp at hp
  | cons a as =>
    simp only [List.head?_cons, Option.some.injEq] at hp
    subst hp
    have hbc : (backtick == c) = false := beq_eq_false_iff_ne.mpr (Ne.symm hc)
    simp [List.isPrefixOf, hbc]

/-- pyReplace consumes a pattern occurrence sitting at the very start of
the input. -/
theorem pyReplace_consume (pat rep rest : List Char) (hp : pat ≠ []) :
    pyReplace (pat ++ rest) pat rep = rep ++ pyReplace rest pat rep := by
  cases pat with
  | nil => exact absurd rfl hp
  | cons a as =>
    have hpre : (a :: as).isPrefixOf (a :: (as ++ rest)) = true :=
      List.isPrefixOf_iff_prefix.mpr ⟨rest, by simp⟩
    unfold pyReplace
    simp only [List.cons_append, List.length_cons, replaceGo, List.append_eq]
    rw [if_pos hpre]
    congr 1
    have hdrop : (as ++ rest).drop (as.length + 1 - 1) = rest := by
      simp only [Nat.add_sub_cancel]
      exact List.drop_left as rest
    rw [hdrop]
    exact replaceGo_congr _ _ _ _ _ (by simp) (le_refl _)

/-- Scanning past a backtick-free region: when the pattern starts with a
backtick, pyReplace leaves a backtick-free left part untouched. -/
theorem pyReplace_append_left (pat rep : List Char) (hp : pat.head? = some backtick) :
    ∀ a b : List Char, backtick ∉ a → pyReplace (a ++ b) pat rep = a ++ pyReplace b pat rep := by
  intro a
  induction a with
  | nil => intro b _; simp
  | cons c a ih =>
    intro b ha
    have hc : c ≠ backtick := fun h => ha (by simp [h])
    rw [List.cons_append, pyReplace_cons_of_neg _ _ _ _ (isPrefixOf_cons_of_head _ _ _ hp hc),
        ih b (fun h => ha (List.mem_cons_of_mem _ h)), List.cons_append]

/-- A backtick-free string is unchanged by replacing a pattern that
starts with a backtick. -/
theorem pyReplace_eq_self (pat rep : List Char) (hp : pat.head? = some backtick)
    (a : List Char) (ha : backtick ∉ a) : pyReplace a pat rep = a := by
  have h := pyReplace_append_left pat rep hp a [] ha
  simpa [pyReplace_nil] using h

/-- dropWhile returns a suffix of its input. -/
theorem dropWhile_suffix_ex (p : Char → Bool) (l : List Char) :
    ∃ t, t ++ l.dropWhile p = l := by
  induction l with
  | nil => exact ⟨[], rfl⟩
  | cons a l ih =>
    by_cases h : p a
    · obtain ⟨t, ht⟩ := ih
      exact ⟨a :: t, by rw [List.dropWhile_cons, if_pos h, List.cons_append, ht]⟩
    · exact ⟨[], by rw [List.dropWhile_cons, if_neg h, List.nil_append]⟩

theorem dropWhile_length_le (p : Char → Bool) (l : List Char) :
    (l.dropWhile p).length ≤ l.length := by
  obtain ⟨t, ht⟩ := dropWhile_suffix_ex p l
  calc (l.dropWhile p).length ≤ t.length + (l.dropWhile p).length := Nat.le_add_left _ _
  _ = l.length := by rw [← List.length_append, ht]

theorem dropWhile_eq_self_of_length (p : Char → Bool) (l : List Char)
    (h : (l.dropWhile p).length = l.length) : l.dropWhile p = l := by
  obtain ⟨t, ht⟩ := dropWhile_suffix_ex p l
  have hlen := congrArg List.length ht
  rw [List.length_append, h] at hlen
  have ht0 : t = [] := List.eq_nil_of_length_eq_zero (by omega)
  subst ht0
  simpa using ht

/-- A string unchanged by strip has no leading whitespace. -/
theorem stripSelf_dropWhile (s : List Char) (hs : stripList s = s) :
    s.dropWhile isPyWhitespace = s := by
  apply dropWhile_eq_self_of_length
  have h1 : (stripList s).length = s.length := by rw [hs]
  have h2 : (stripList s).length ≤ (s.dropWhile isPyWhitespace).length := by
    unfold stripList
    rw [List.length_reverse]
    calc ((s.dropWhile isPyWhitespace).reverse.dropWhile isPyWhitespace).length
        ≤ (s.dropWhile isPyWhitespace).reverse.length := dropWhile_length_le _ _
    _ = (s.dropWhile isPyWhitespace).length := List.length_reverse _
  have h3 : (s.dropWhile isPyWhitespace).length ≤ s.length := dropWhile_length_le _ _
  omega

/-- A string unchanged by strip has no trailing whitespace. -/
theorem stripSelf_reverse (s : List Char) (hs : stripList s = s) :
    s.reverse.dropWhile isPyWhitespace = s.reverse := by
  have hd := stripSelf_dropWhile s hs
  have h1 : stripList s = (s.reverse.dropWhile isPyWhitespace).reverse := by
    unfold stripList
    rw [hd]
  rw [hs] at h1
  have h2 := congrArg List.reverse h1
  simpa using h2.symm

/-- The head of a string with no leading whitespace is not whitespace. -/
theorem head_not_ws (c : Char) (s' : List Char)
    (h : (c :: s').dropWhile isPyWhitespace = c :: s') : isPyWhitespace c = false := by
  by_contra hc
  rw [Bool.not_eq_false] at hc
  rw [List.dropWhile_cons, if_pos hc] at h
  have hlen := congrArg List.length h
  have hle := dropWhile_length_le isPyWhitespace s'
  simp only [List.length_cons] at hlen
  omega

/-- Stripping a newline-framed copy of a strip-invariant string recovers
the string. -/
theorem strip_wrap (s : List Char) (hs : stripList s = s) :
    stripList ('\n' :: (s ++ ['\n'])) = s := by
  cases s with
  | nil => rfl
  | cons c s' =>
    have hd := stripSelf_dropWhile _ hs
    have hr := stripSelf_reverse _ hs
    have hc : isPyWhitespace c = false := head_not_ws c s' hd
    unfold stripList
    rw [List.dropWhile_cons, if_pos (by decide : isPyWhitespace '\n' = true),
        List.cons_append, List.dropWhile_cons, if_neg (by simp [hc])]
    have hrev : (c :: (s' ++ ['\n'])).reverse = '\n' :: (c :: s').reverse := by
      rw [show c :: (s' ++ ['\n']) = (c :: s') ++ ['\n'] from (List.cons_append c s' _).symm,
          List.reverse_append]
      rfl
    rw [hrev, List.dropWhile_cons, if_pos (by decide : isPyWhitespace '\n' = true), hr,
        List.reverse_reverse]

/-- Cleaning an all-whitespace response yields the empty string (the
falsy value main tests at line 363). -/
theorem cleanCode_of_ws (t : List Char) (h : ∀ c ∈ t, isPyWhitespace c = true) :
    cleanCode t = [] := by
  have hwb : isPyWhitespace backtick = false := by decide
  have hb : backtick ∉ t := fun hmem => by rw [h backtick hmem] at hwb; cases hwb
  unfold cleanCode
  rw [pyReplace_eq_self _ _ (by decide) t hb, pyReplace_eq_self _ _ (by decide) t hb]
  unfold stripList
  have h1 : t.dropWhile isPyWhitespace = [] := List.dropWhile_eq_nil_iff.mpr h
  rw [h1]
  rfl

/-- Path lemma: a service error takes the line-449 branch. -/
theorem orchestrate_synth_error (screener : List Char → List (List Char)) (prompt m : List Char)
    (ev : ExecEvent) (files : List Artifact) (now : Int) (hist : List HistoryEntry) :
    orchestrateWith screener prompt (Except.error m) ev files now hist =
      ⟨.synthesisFailed synthFailMsg, [], hist, 0, files, none⟩ := rfl

/-- Path lemma: a response that cleans to the empty string takes the
line-449 branch. -/
theorem orchestrate_synth_empty (screener : List Char → List (List Char)) (prompt t : List Char)
    (ev : ExecEvent) (files : List Artifact) (now : Int) (hist : List HistoryEntry)
    (ht : cleanCode t = []) :
    orchestrateWith screener prompt (Except.ok t) ev files now hist =
      ⟨.synthesisFailed synthFailMsg, [], hist, 0, files, none⟩ := by
  simp [orchestrateWith, generate_pdf_code, ht]

/-- Path lemma: execution failure (lines 444-448). -/
theorem orchestrate_exec_fail (screener : List Char → List (List Char)) (prompt t : List Char)
    (ev : ExecEvent) (files : List Artifact) (now : Int) (hist : List HistoryEntry)
    (hne : cleanCode t ≠ []) (hres : (create_pdf_from_code ev).result = none) :
    orchestrateWith screener prompt (Except.ok t) ev files now hist =
      ⟨.executionFailed ((create_pdf_from_code ev).error.getD []), screener (cleanCode t),
       save_to_history ⟨now, prompt, cleanCode t, false, none⟩ hist, 1, files,
       some (create_pdf_from_code ev).tempFileRemoved⟩ := by
  simp [orchestrateWith, generate_pdf_code, hne, hres]

/-- Path lemma: the child exits but no pdf file exists (lines 440-443). -/
theorem orchestrate_noartifact (screener : List Char → List (List Char)) (prompt t : List Char)
    (ev : ExecEvent) (files : List Artifact) (now : Int) (hist : List HistoryEntry)
    (q : CompletedProc) (hne : cleanCode t ≠ [])
    (hres : (create_pdf_from_code ev).result = some q) (hfp : find_pdf_files files = []) :
    orchestrateWith screener prompt (Except.ok t) ev files now hist =
      ⟨.noArtifact noArtifactMsg, screener (cleanCode t),
       save_to_history ⟨now, prompt, cleanCode t, false, none⟩ hist, 1, files,
       some (create_pdf_from_code ev).tempFileRemoved⟩ := by
  simp [orchestrateWith, generate_pdf_code, hne, hres, hfp]

/-- Path lemma: the success branch (lines 383-439). -/
theorem orchestrate_located (screener : List Char → List (List Char)) (prompt t : List Char)
    (ev : ExecEvent) (files : List Artifact) (now : Int) (hist : List HistoryEntry)
    (q : CompletedProc) (c : Artifact) (rest : List Artifact) (hne : cleanCode t ≠ [])
    (hres : (create_pdf_from_code ev).result = some q)
    (hfp : find_pdf_files files = c :: rest) :
    orchestrateWith screener prompt (Except.ok t) ev files now hist =
      ⟨.success c, screener (cleanCode t),
       save_to_history ⟨now, prompt, cleanCode t, true, some c.path⟩ hist, 1,
       (c :: rest).take 3, some (create_pdf_from_code ev).tempFileRemoved⟩ := by
  simp [orchestrateWith, generate_pdf_code, hne, hres, hfp]

/-- The artifact listing is a permutation of the directory contents. -/
theorem find_pdf_files_perm (files : List Artifact) : List.Perm (find_pdf_files files) files :=
  List.perm_insertionSort mtimeGE files

theorem find_pdf_files_length (files : List Artifact) :
    (find_pdf_files files).length = files.length :=
  (find_pdf_files_perm files).length_eq

/-- The head of the listing is a directory member of maximal mtime. -/
theorem find_head_max (files : List Artifact) (c : Artifact)
    (h : (find_pdf_files files).head? = some c) :
    c ∈ files ∧ ∀ a ∈ files, a.mtime ≤ c.mtime := by
  have hperm := find_pdf_files_perm files
  have hsorted : List.Sorted mtimeGE (find_pdf_files files) :=
    List.sorted_insertionSort mtimeGE files
  cases hfp : find_pdf_files files with
  | nil => rw [hfp] at h; simp at h
  | cons c0 rest =>
    rw [hfp] at h hperm hsorted
    simp only [List.head?_cons, Option.some.injEq] at h
    subst h
    refine ⟨hperm.mem_iff.mp (List.mem_cons_self _ _), ?_⟩
    intro a ha
    have hmem := hperm.mem_iff.mpr ha
    cases List.mem_cons.mp hmem with
    | inl h' => rw [h']
    | inr h' => exact (List.sorted_cons.mp hsorted).1 a h'

/-- Claim C1, counterexample: on the timeout exit path the temporary
source file is not removed — the os.unlink at line 97 sits before the
TimeoutExpired handler and is skipped when subprocess.run raises, so the
claim that the file is removed on every exit path fails at the concrete
input ExecEvent.timeout. -/
theorem c1_counterexample : (create_pdf_from_code ExecEvent.timeout).tempFileRemoved = false := rfl

/-- Claim C1 (amended): the temporary source file is removed when the
child process runs to completion (exit code 0 or non-zero), but it is
left on disk when the run ends in a timeout or a launch failure. -/
theorem c1_cleanup_amended (p : CompletedProc) (m : List Char) :
    (create_pdf_from_code (ExecEvent.completes p)).tempFileRemoved = true ∧
    (create_pdf_from_code ExecEvent.timeout).tempFileRemoved = false ∧
    (create_pdf_from_code (ExecEvent.launchFailure m)).tempFileRemoved = false := by
  refine ⟨?_, rfl, rfl⟩
  by_cases h : p.returncode = 0 <;> simp [create_pdf_from_code, h]

/-- Witness for c1_cleanup_amended at concrete events. -/
theorem c1_witness :
    (create_pdf_from_code (ExecEvent.completes ⟨0, [], []⟩)).tempFileRemoved = true ∧
    (create_pdf_from_code ExecEvent.timeout).tempFileRemoved = false ∧
    (create_pdf_from_code (ExecEvent.launchFailure ("e".toList))).tempFileRemoved = false :=
  c1_cleanup_amended ⟨0, [], []⟩ ("e".toList)

/-- Claim C2, counterexample: with execution start time 10 and a single
stale artifact of mtime 5 already in the directory, a successful run that
produces no file still returns the stale artifact — its timestamp is
strictly before the start bound, so the claimed since-filter does not
exist in the code. -/
theorem c2_counterexample :
    (orchestrate ("p".toList) (Except.ok ("x".toList)) (ExecEvent.completes ⟨0, [], []⟩)
        [⟨"stale.pdf".toList, 5⟩] 10 []).status =
      ReqStatus.success ⟨"stale.pdf".toList, 5⟩ ∧ (5 : Int) < 10 := by
  constructor
  · decide
  · decide

/-- Claim C2 (amended): the artifact selected as the result of a
just-completed execution is simply the most recently modified pdf file
in the directory; no comparison with the execution's start time is
performed, so the selected artifact dominates every directory entry by
mtime but may predate the request. -/
theorem c2_selects_newest (prompt t : List Char) (p : CompletedProc) (files : List Artifact)
    (now : Int) (hist : List HistoryEntry) (hne : cleanCode t ≠ [])
    (hrc : p.returncode = 0) (hf : files ≠ []) :
    ∃ c, (orchestrate prompt (Except.ok t) (ExecEvent.completes p) files now hist).status =
        ReqStatus.success c ∧ c ∈ files ∧ ∀ a ∈ files, a.mtime ≤ c.mtime := by
  have hres : (create_pdf_from_code (ExecEvent.completes p)).result = some p := by
    simp [create_pdf_from_code, hrc]
  have hlen : (find_pdf_files files).length ≠ 0 := by
    rw [find_pdf_files_length]
    simpa [List.length_eq_zero] using hf
  obtain ⟨c, rest, hfp⟩ : ∃ c rest, find_pdf_files files = c :: rest := by
    cases h : find_pdf_files files with
    | nil => rw [h] at hlen; simp at hlen
    | cons c rest => exact ⟨c, rest, rfl⟩
  have hmax := find_head_max files c (by rw [hfp]; rfl)
  refine ⟨c, ?_, hmax.1, hmax.2⟩
  unfold orchestrate
  rw [orchestrate_located _ _ _ _ _ _ _ p c rest hne hres hfp]

/-- Witness for c2_selects_newest at a concrete directory. -/
theorem c2_witness :
    ∃ c, (orchestrate ("p".toList) (Except.ok ("x".toList)) (ExecEvent.completes ⟨0, [], []⟩)
        [⟨"a.pdf".toList, 3⟩, ⟨"b.pdf".toList, 7⟩] 0 []).status = ReqStatus.success c ∧
      c ∈ [(⟨"a.pdf".toList, 3⟩ : Artifact), ⟨"b.pdf".toList, 7⟩] ∧
      ∀ a ∈ [(⟨"a.pdf".toList, 3⟩ : Artifact), ⟨"b.pdf".toList, 7⟩], a.mtime ≤ c.mtime :=
  c2_selects_newest _ _ _ _ _ _ (by decide) rfl (by decide)

/-- Claim C5: when the child process exceeds the deadline the request
reports exactly the timeout message (status timeout), no success result
is produced and no artifact is returned for the attempt; the
TimeoutExpired handler turns the expiry into a structured error rather
than an unhandled fault. -/
theorem c5_timeout_status (prompt t : List Char) (files : List Artifact) (now : Int)
    (hist : List HistoryEntry) (hne : cleanCode t ≠ []) :
    (orchestrate prompt (Except.ok t) ExecEvent.timeout files now hist).status =
      ReqStatus.executionFailed timeoutMsg ∧
    ∀ a, (orchestrate prompt (Except.ok t) ExecEvent.timeout files now hist).status ≠
      ReqStatus.success a := by
  unfold orchestrate
  rw [orchestrate_exec_fail _ prompt t ExecEvent.timeout files now hist hne rfl]
  exact ⟨rfl, fun a h => ReqStatus.noConfusion h⟩

/-- Witness for c5_timeout_status at a concrete request. -/
theorem c5_witness :
    cleanCode ("print(1)".toList) ≠ [] ∧
    (orchestrate ("p".toList) (Except.ok ("print(1)".toList)) ExecEvent.timeout [] 0 []).status =
      ReqStatus.executionFailed timeoutMsg :=
  ⟨by decide, (c5_timeout_status _ _ _ _ _ (by decide)).1⟩

/-- Claim C6: after any sequence of insertions starting from the empty
session history the history length never exceeds the cap of 10; each
insertion puts the new entry at the head and keeps a prefix of the
new-entry-first list, so the entries evicted are the oldest ones at the
tail. -/
theorem c6_history_cap :
    (∀ es, (recordAll es).length ≤ 10) ∧
    (∀ (e : HistoryEntry) (hist : List HistoryEntry),
      (save_to_history e hist).head? = some e ∧
      (save_to_history e hist) <+: (e :: hist)) := by
  constructor
  · have key : ∀ (es : List HistoryEntry) (h : List HistoryEntry), h.length ≤ 10 →
        (es.foldl (fun h e => save_to_history e h) h).length ≤ 10 := by
      intro es
      induction es with
      | nil => intro h hh; simpa using hh
      | cons e es ih =>
        intro h hh
        rw [List.foldl_cons]
        apply ih
        unfold save_to_history
        rw [List.length_take]
        exact Nat.min_le_left _ _
    intro es
    exact key es [] (by simp)
  · intro e hist
    exact ⟨rfl, List.take_prefix _ _⟩

/-- Witness for c6_history_cap at a concrete entry and history. -/
theorem c6_witness :
    (recordAll [⟨0, ("p".toList), ("c".toList), true, none⟩]).length ≤ 10 ∧
    (save_to_history ⟨0, ("p".toList), ("c".toList), true, none⟩ []).head? =
      some ⟨0, ("p".toList), ("c".toList), true, none⟩ ∧
    (save_to_history ⟨0, ("p".toList), ("c".toList), true, none⟩ []) <+:
      [⟨0, ("p".toList), ("c".toList), true, none⟩] :=
  ⟨c6_history_cap.1 _, (c6_history_cap.2 _ _).1, (c6_history_cap.2 _ _).2⟩

/-- Claim C3, counterexample: a request that fails at code synthesis
appends no history entry at all — starting from the empty history, the
history still has length 0 after the request instead of the length 1
that exactly-one-entry-per-request requires (the line-449 branch of main
has no save_to_history call). -/
theorem c3_counterexample :
    ((orchestrate ("p".toList) (Except.error ("boom".toList))
        ExecEvent.timeout [] 0 []).history).length = 0 := rfl

/-- Claim C3 (amended): exactly one history entry is recorded for every
request in which code synthesis yields nonempty code — whether execution
fails, no artifact is found, or the request succeeds — but a request
that fails at synthesis (service error or empty result) records no
history entry. -/
theorem c3_history_amended (prompt : List Char) (response : Except (List Char) (List Char))
    (ev : ExecEvent) (files : List Artifact) (now : Int) (hist : List HistoryEntry) :
    (∀ m, response = Except.error m →
      (orchestrate prompt response ev files now hist).history = hist) ∧
    (∀ t, response = Except.ok t → cleanCode t = [] →
      (orchestrate prompt response ev files now hist).history = hist) ∧
    (∀ t, response = Except.ok t → cleanCode t ≠ [] →
      ∃ e, (orchestrate prompt response ev files now hist).history = save_to_history e hist) := by
  refine ⟨?_, ?_, ?_⟩
  · intro m hm
    subst hm
    unfold orchestrate
    rw [orchestrate_synth_error]
  · intro t hm ht
    subst hm
    unfold orchestrate
    rw [orchestrate_synth_empty _ prompt t ev files now hist ht]
  · intro t hm ht
    subst hm
    unfold orchestrate
    cases hres : (create_pdf_from_code ev).result with
    | none =>
      rw [orchestrate_exec_fail _ prompt t ev files now hist ht hres]
      exact ⟨_, rfl⟩
    | some q =>
      cases hfp : find_pdf_files files with
      | nil =>
        rw [orchestrate_noartifact _ prompt t ev files now hist q ht hres hfp]
        exact ⟨_, rfl⟩
      | cons c rest =>
        rw [orchestrate_located _ prompt t ev files now hist q c rest ht hres hfp]
        exact ⟨_, rfl⟩

/-- Witness for c3_history_amended at a concrete request. -/
theorem c3_witness :
    cleanCode ("x".toList) ≠ [] ∧
    ∃ e, (orchestrate ("p".toList) (Except.ok ("x".toList)) ExecEvent.timeout [] 0 []).history =
      save_to_history e [] :=
  ⟨by decide, (c3_history_amended _ _ _ _ _ _).2.2 "x".toList rfl (by decide)⟩

/-- Claim C4: with at least 4 distinct artifact files in the directory
and keep-count 3, after the prune of lines 434-439 exactly 3 artifacts
remain — the current request's artifact (the head of the newest-first
listing) plus the two next-newest others — and the current artifact is
never among the deleted tail. -/
theorem c4_prune_retention (prompt t : List Char) (ev : ExecEvent) (q : CompletedProc)
    (files : List Artifact) (now : Int) (hist : List HistoryEntry)
    (hne : cleanCode t ≠ []) (hres : (create_pdf_from_code ev).result = some q)
    (h4 : 4 ≤ files.length) (hnd : (files.map Artifact.path).Nodup) :
    ∃ c, (orchestrate prompt (Except.ok t) ev files now hist).status = ReqStatus.success c ∧
      (orchestrate prompt (Except.ok t) ev files now hist).remaining =
        (find_pdf_files files).take 3 ∧
      ((orchestrate prompt (Except.ok t) ev files now hist).remaining).length = 3 ∧
      ((orchestrate prompt (Except.ok t) ev files now hist).remaining).head? = some c ∧
      c ∉ (find_pdf_files files).drop 3 := by
  obtain ⟨c, rest, hfp⟩ : ∃ c rest, find_pdf_files files = c :: rest := by
    cases h : find_pdf_files files with
    | nil =>
      have := find_pdf_files_length files
      rw [h] at this
      simp at this
      omega
    | cons c rest => exact ⟨c, rest, rfl⟩
  have hrest : 3 ≤ rest.length := by
    have hl := find_pdf_files_length files
    rw [hfp, List.length_cons] at hl
    omega
  unfold orchestrate
  rw [orchestrate_located _ prompt t ev files now hist q c rest hne hres hfp]
  refine ⟨c, rfl, by rw [hfp], ?_, rfl, ?_⟩
  · rw [List.length_take, List.length_cons]
    omega
  · rw [hfp]
    have hcrest : c ∉ rest := by
      have hperm := (find_pdf_files_perm files).map Artifact.path
      rw [hfp] at hperm
      have hnd2 : ((c :: rest).map Artifact.path).Nodup := hperm.nodup_iff.mpr hnd
      rw [List.map_cons] at hnd2
      have hhead := (List.nodup_cons.mp hnd2).1
      intro hcr
      exact hhead (List.mem_map_of_mem Artifact.path hcr)
    intro hmem
    apply hcrest
    have hsub : List.Sublist ((c :: rest).drop 3) rest := by
      rw [List.drop_succ_cons]
      exact List.drop_sublist _ _
    exact hsub.subset hmem

/-- Witness for c4_prune_retention at a concrete directory of four
artifacts. -/
theorem c4_witness :
    ∃ c, (orchestrate ("p".toList) (Except.ok ("x".toList)) (ExecEvent.completes ⟨0, [], []⟩)
        [⟨"a.pdf".toList, 1⟩, ⟨"b.pdf".toList, 4⟩, ⟨"c.pdf".toList, 2⟩, ⟨"d.pdf".toList, 3⟩]
        0 []).status = ReqStatus.success c ∧
      (orchestrate ("p".toList) (Except.ok ("x".toList)) (ExecEvent.completes ⟨0, [], []⟩)
        [⟨"a.pdf".toList, 1⟩, ⟨"b.pdf".toList, 4⟩, ⟨"c.pdf".toList, 2⟩, ⟨"d.pdf".toList, 3⟩]
        0 []).remaining =
        (find_pdf_files [⟨"a.pdf".toList, 1⟩, ⟨"b.pdf".toList, 4⟩, ⟨"c.pdf".toList, 2⟩,
          ⟨"d.pdf".toList, 3⟩]).take 3 ∧
      ((orchestrate ("p".toList) (Except.ok ("x".toList)) (ExecEvent.completes ⟨0, [], []⟩)
        [⟨"a.pdf".toList, 1⟩, ⟨"b.pdf".toList, 4⟩, ⟨"c.pdf".toList, 2⟩, ⟨"d.pdf".toList, 3⟩]
        0 []).remaining).length = 3 ∧
      ((orchestrate ("p".toList) (Except.ok ("x".toList)) (ExecEvent.completes ⟨0, [], []⟩)
        [⟨"a.pdf".toList, 1⟩, ⟨"b.pdf".toList, 4⟩, ⟨"c.pdf".toList, 2⟩, ⟨"d.pdf".toList, 3⟩]
        0 []).remaining).head? = some c ∧
      c ∉ (find_pdf_files [⟨"a.pdf".toList, 1⟩, ⟨"b.pdf".toList, 4⟩, ⟨"c.pdf".toList, 2⟩,
        ⟨"d.pdf".toList, 3⟩]).drop 3 :=
  c4_prune_retention _ _ _ ⟨0, [], []⟩ _ _ _ (by decide) rfl (by decide) (by decide)

/-- Claim C9: a synthesis failure — a service error or an all-whitespace
result (which cleans to the empty, falsy string) — terminates the
request with the structured synthesis-failure message, attempts no
execution, and performs no retry (the orchestration invokes the
synthesizer once and, on failure, reaches line 452 directly). -/
theorem c9_synthesis_failed (prompt : List Char) (ev : ExecEvent) (files : List Artifact)
    (now : Int) (hist : List HistoryEntry) :
    (∀ m, (orchestrate prompt (Except.error m) ev files now hist).status =
        ReqStatus.synthesisFailed synthFailMsg ∧
      (orchestrate prompt (Except.error m) ev files now hist).executions = 0) ∧
    (∀ t, (∀ c ∈ t, isPyWhitespace c = true) →
      (orchestrate prompt (Except.ok t) ev files now hist).status =
        ReqStatus.synthesisFailed synthFailMsg ∧
      (orchestrate prompt (Except.ok t) ev files now hist).executions = 0) := by
  constructor
  · intro m
    unfold orchestrate
    rw [orchestrate_synth_error]
    exact ⟨rfl, rfl⟩
  · intro t ht
    unfold orchestrate
    rw [orchestrate_synth_empty _ prompt t ev files now hist (cleanCode_of_ws t ht)]
    exact ⟨rfl, rfl⟩

/-- Witness for c9_synthesis_failed: an all-whitespace response. -/
theorem c9_witness :
    (∀ c ∈ "  ".toList, isPyWhitespace c = true) ∧
    (orchestrate ("p".toList) (Except.ok ("  ".toList)) ExecEvent.timeout [] 0 []).status =
      ReqStatus.synthesisFailed synthFailMsg ∧
    (orchestrate ("p".toList) (Except.ok ("  ".toList)) ExecEvent.timeout [] 0 []).executions = 0 :=
  ⟨by decide, ((c9_synthesis_failed _ _ _ _ _).2 _ (by decide)).1,
   ((c9_synthesis_failed _ _ _ _ _).2 _ (by decide)).2⟩

/-- Claim C7, counterexample: the strip step removes every fence marker
occurrence and trims edge whitespace, so the text consisting of a fence
marker surrounded by spaces is not reproduced by wrap-then-strip. -/
theorem c7_counterexample :
    cleanCode (wrapFence (" ``` ".toList)) ≠ " ``` ".toList := by decide

/-- Claim C7 (amended): wrap-then-strip reproduces the original text
exactly for every text that contains no backtick character and is
unchanged by whitespace-stripping; in general the replace calls of line
74 delete every occurrence of the fence markers anywhere in the text and
strip() trims edge whitespace, so other texts are not reproduced. -/
theorem c7_roundtrip_amended (s : List Char) (hb : backtick ∉ s) (hs : stripList s = s) :
    cleanCode (wrapFence s) = s := by
  have hw : wrapFence s = pythonFence ++ ('\n' :: (s ++ ('\n' :: codeFence))) := by
    have e1 : "```python\n".toList = pythonFence ++ ['\n'] := by decide
    have e2 : "\n```".toList = '\n' :: codeFence := by decide
    unfold wrapFence
    rw [e1, e2]
    simp
  have hnl : ('\n' : Char) ≠ backtick := by decide
  have h1 : pyReplace (wrapFence s) pythonFence [] = '\n' :: (s ++ ('\n' :: codeFence)) := by
    rw [hw,
        pyReplace_consume pythonFence [] ('\n' :: (s ++ ('\n' :: codeFence))) (by decide),
        List.nil_append,
        pyReplace_cons_of_neg pythonFence [] '\n' (s ++ ('\n' :: codeFence))
          (isPrefixOf_cons_of_head pythonFence '\n' _ (by decide) hnl),
        pyReplace_append_left pythonFence [] (by decide) s ('\n' :: codeFence) hb,
        pyReplace_cons_of_neg pythonFence [] '\n' codeFence
          (isPrefixOf_cons_of_head pythonFence '\n' _ (by decide) hnl),
        show pyReplace codeFence pythonFence [] = codeFence from by decide]
  have h2 : pyReplace ('\n' :: (s ++ ('\n' :: codeFence))) codeFence [] =
      '\n' :: (s ++ ['\n']) := by
    rw [pyReplace_cons_of_neg codeFence [] '\n' (s ++ ('\n' :: codeFence))
          (isPrefixOf_cons_of_head codeFence '\n' _ (by decide) hnl),
        pyReplace_append_left codeFence [] (by decide) s ('\n' :: codeFence) hb,
        pyReplace_cons_of_neg codeFence [] '\n' codeFence
          (isPrefixOf_cons_of_head codeFence '\n' _ (by decide) hnl),
        show pyReplace codeFence codeFence [] = [] from by decide]
  unfold cleanCode
  rw [h1, h2]
  exact strip_wrap s hs

/-- Witness for c7_roundtrip_amended at a concrete backtick-free,
strip-invariant text. -/
theorem c7_witness :
    backtick ∉ "abc".toList ∧ stripList ("abc".toList) = "abc".toList ∧
    cleanCode (wrapFence ("abc".toList)) = "abc".toList :=
  ⟨by decide, by decide, c7_roundtrip_amended _ (by decide) (by decide)⟩

/-- Claim C8: screening source containing the dynamic-evaluation
substring produces at least one warning; screening source containing no
deny-listed substring produces the empty list; validate_code_safety is a
total function (it never raises); and the screening result never changes
the execution or its outcome — every component of the orchestration
result other than the displayed warnings is independent of the screener
used. -/
theorem c8_screening :
    (∀ code, containsSub ("eval(".toList) code = true → validate_code_safety code ≠ []) ∧
    (∀ code, (∀ p ∈ dangerousPatterns, containsSub p code = false) →
      validate_code_safety code = []) ∧
    (∀ (s₁ s₂ : List Char → List (List Char)) prompt response ev files now hist,
      (orchestrateWith s₁ prompt response ev files now hist).status =
        (orchestrateWith s₂ prompt response ev files now hist).status ∧
      (orchestrateWith s₁ prompt response ev files now hist).history =
        (orchestrateWith s₂ prompt response ev files now hist).history ∧
      (orchestrateWith s₁ prompt response ev files now hist).executions =
        (orchestrateWith s₂ prompt response ev files now hist).executions ∧
      (orchestrateWith s₁ prompt response ev files now hist).remaining =
        (orchestrateWith s₂ prompt response ev files now hist).remaining ∧
      (orchestrateWith s₁ prompt response ev files now hist).tempFileRemoved =
        (orchestrateWith s₂ prompt response ev files now hist).tempFileRemoved) := by
  refine ⟨?_, ?_, ?_⟩
  · intro code h hempty
    have hm : "eval(".toList ∈ dangerousPatterns.filter (fun p => containsSub p code) :=
      List.mem_filter.mpr ⟨by decide, h⟩
    unfold validate_code_safety at hempty
    rw [List.map_eq_nil_iff] at hempty
    rw [hempty] at hm
    simp at hm
  · intro code h
    unfold validate_code_safety
    have hfil : dangerousPatterns.filter (fun p => containsSub p code) = [] := by
      rw [List.filter_eq_nil_iff]
      intro p hp
      simp [h p hp]
    rw [hfil]
    rfl
  · intro s₁ s₂ prompt response ev files now hist
    cases response with
    | error m =>
      rw [orchestrate_synth_error, orchestrate_synth_error]
      exact ⟨rfl, rfl, rfl, rfl, rfl⟩
    | ok t =>
      by_cases ht : cleanCode t = []
      · rw [orchestrate_synth_empty s₁ prompt t ev files now hist ht,
            orchestrate_synth_empty s₂ prompt t ev files now hist ht]
        exact ⟨rfl, rfl, rfl, rfl, rfl⟩
      · cases hres : (create_pdf_from_code ev).result with
        | none =>
          rw [orchestrate_exec_fail s₁ prompt t ev files now hist ht hres,
              orchestrate_exec_fail s₂ prompt t ev files now hist ht hres]
          exact ⟨rfl, rfl, rfl, rfl, rfl⟩
        | some q =>
          cases hfp : find_pdf_files files with
          | nil =>
            rw [orchestrate_noartifact s₁ prompt t ev files now hist q ht hres hfp,
                orchestrate_noartifact s₂ prompt t ev files now hist q ht hres hfp]
            exact ⟨rfl, rfl, rfl, rfl, rfl⟩
          | cons c rest =>
            rw [orchestrate_located s₁ prompt t ev files now hist q c rest ht hres hfp,
                orchestrate_located s₂ prompt t ev files now hist q c rest ht hres hfp]
            exact ⟨rfl, rfl, rfl, rfl, rfl⟩

/-- Witness for c8_screening at concrete sources. -/
theorem c8_witness :
    containsSub ("eval(".toList) "eval(1)".toList = true ∧
    validate_code_safety ("eval(1)".toList) ≠ [] ∧
    validate_code_safety ("print".toList) = [] :=
  ⟨by decide, c8_screening.1 _ (by decide), c8_screening.2.1 _ (by decide)⟩

/-- A duplicate-free list of strings contains any element at most once. -/
theorem count_le_one_of_nodup (l : List (List Char)) (h : l.Nodup) (a : List Char) :
    l.count a ≤ 1 := by
  induction l with
  | nil => simp
  | cons x xs ih =>
    rcases List.nodup_cons.mp h with ⟨hx, hxs⟩
    by_cases hax : x = a
    · subst hax
      have h0 : xs.count x = 0 := List.count_eq_zero.mpr hx
      simp [List.count_cons, h0]
    · have hbeq : (x == a) = false := beq_eq_false_iff_ne.mpr hax
      simp only [List.count_cons, hbeq, if_false, Nat.add_zero]
      exact ih hxs

/-- Claim C10: the screener emits at most one warning per deny-list
pattern (the warning list is duplicate-free), the warnings appear in the
fixed deny-list order (the list is a sublist of the deny-list image),
and consequently there are never more than 10 warnings. -/
theorem c10_warning_bounds (code : List Char) :
    (validate_code_safety code).length ≤ 10 ∧
    List.Sublist (validate_code_safety code) (dangerousPatterns.map warnMsg) ∧
    ∀ p, (validate_code_safety code).count (warnMsg p) ≤ 1 := by
  have hsub : List.Sublist (validate_code_safety code) (dangerousPatterns.map warnMsg) :=
    (List.filter_sublist _).map warnMsg
  have hnd : (dangerousPatterns.map warnMsg).Nodup := by decide
  have hndr : (validate_code_safety code).Nodup := hnd.sublist hsub
  refine ⟨?_, hsub, ?_⟩
  · have hlen := hsub.length_le
    have h10 : (dangerousPatterns.map warnMsg).length = 10 := by decide
    rw [h10] at hlen
    exact hlen
  · intro p
    exact count_le_one_of_nodup _ hndr _

/-- Witness for c10_warning_bounds at a concrete source with a repeated
pattern. -/
theorem c10_witness :
    (validate_code_safety ("eval( eval(".toList)).length ≤ 10 ∧
    (validate_code_safety ("eval( eval(".toList)).count (warnMsg ("eval(".toList)) ≤ 1 :=
  ⟨(c10_warning_bounds _).1, (c10_warning_bounds _).2.2 _⟩

end PDFGen
